import Mathlib

/-!
Verification of `scripts/configure_server.py` (docker-garrysmod).

The Python script is shallowly embedded below:

* `urlsplit` models the relevant fragment of `urllib.parse.urlsplit`
  (leading C0-control/space stripping, tab/CR/LF removal, scheme
  recognition, `//`-netloc splitting with the unbalanced-bracket
  `ValueError`, fragment and query splitting).
* `S3Path` with `from_url`, `url`, `navigate`, `base_name` embeds the
  dataclass of the same name.
* `S3World` is the external object store (boto3 client) as an oracle;
  `St` is the local filesystem plus an event trace; every remote call and
  file write is logged so that temporal/frame claims can be stated.
* `RuntimeContext` with `config_manifest`, `download_map`,
  `download_maps`, `download_configuration_file`,
  `download_configuration_files` and `mainRun` embed the rest of the
  script.  Fallible Python operations become `Except (Err × St)` values:
  an uncaught exception carries the state at the moment it was raised.
-/

/-- Byte sequences (file and object contents). -/
abbrev Bytes := List Nat

/-! ## Model of `urllib.parse.urlsplit` (the fragment the script exercises) -/

/-- Characters allowed in a URL scheme after the first (letters, digits, `+`, `-`, `.`),
as in `urllib.parse.scheme_chars`. -/
def schemeChar (c : Char) : Bool :=
  c.isAlpha || c.isDigit || c == '+' || c == '-' || c == '.'

/-- A valid scheme candidate: non-empty, starts with an ASCII letter, all scheme chars. -/
def validScheme (s : List Char) : Bool :=
  !s.isEmpty && (s.headD 'a').isAlpha && s.all schemeChar

/-- C0 control characters and space (codepoints `<= 0x20`), stripped from the
front of a URL by `urlsplit`. -/
def c0OrSpace (c : Char) : Bool := c.toNat ≤ 32

/-- Tab, LF and CR are removed from URLs by `urlsplit` before parsing. -/
def removedByte (c : Char) : Bool := c == '\t' || c == '\n' || c == '\r'

/-- Split a char list at the first occurrence of `d`: returns the part before it
and, if `d` occurs, the part after it (`str.split(d, 1)` in Python). -/
def breakAtChar (d : Char) : List Char → List Char × Option (List Char)
  | [] => ([], none)
  | c :: cs =>
    if c = d then
      ([], some cs)
    else
      let r := breakAtChar d cs
      (c :: r.1, r.2)

/-- Python `url.split(d, 1)` when present, identity with empty second part otherwise. -/
def splitAtOpt (d : Char) (l : List Char) : List Char × List Char :=
  match breakAtChar d l with
  | (before, none) => (before, [])
  | (before, some after) => (before, after)

/-- A character ending the netloc portion (`/`, `?` or `#`); `notNetlocDelim` is the
continuation predicate used when scanning the authority. -/
def notNetlocDelim (c : Char) : Bool := !(c == '/' || c == '?' || c == '#')

/-- Result of `urlsplit`: the five components (we only use scheme, netloc, path). -/
structure UrlSplitResult where
  scheme : List Char
  netloc : List Char
  path : List Char
  query : List Char
  fragment : List Char
deriving DecidableEq, Repr

/-- Leading C0-control/space stripping followed by tab/CR/LF removal, as
`urlsplit` does before any parsing. -/
def preprocess (url : List Char) : List Char :=
  (url.dropWhile c0OrSpace).filter (fun c => !removedByte c)

/-- Scheme recognition: if a `:` occurs and everything before it is a valid
scheme, the (lowercased) scheme and the remainder; otherwise no scheme and the
whole input. -/
def splitScheme (url : List Char) : List Char × List Char :=
  match breakAtChar ':' url with
  | (before, some after) =>
    if validScheme before then (before.map Char.toLower, after) else ([], url)
  | (_, none) => ([], url)

/-- Netloc recognition: after `//`, the authority runs to the first `/`, `?`
or `#`; without `//` there is no netloc. -/
def splitNetloc (rest : List Char) : List Char × List Char :=
  match rest with
  | '/' :: '/' :: r => (r.takeWhile notNetlocDelim, r.dropWhile notNetlocDelim)
  | r => ([], r)

/-- The `Invalid IPv6 URL` check: an authority holding `[` without `]` (or
vice versa) makes `urlsplit` raise `ValueError`. -/
def bracketBad (netloc : List Char) : Bool :=
  (netloc.any (fun c => c == '[') && !netloc.any (fun c => c == ']'))
    || (netloc.any (fun c => c == ']') && !netloc.any (fun c => c == '['))

/-- Model of `urllib.parse.urlsplit`.  Faithful to CPython for the inputs the
script can meet: strips leading C0-control/space characters, removes tab/CR/LF,
recognises a scheme prefix, splits a `//`-introduced netloc at the first
`/`, `?` or `#`, raises `ValueError` (here `.error ()`) on an authority with an
unbalanced `[`/`]` bracket, then splits off fragment and query. -/
def urlsplit (url0 : List Char) : Except Unit UrlSplitResult :=
  let sr := splitScheme (preprocess url0)
  let nr := splitNetloc sr.2
  if bracketBad nr.1 then
    .error ()
  else
    let fr := splitAtOpt '#' nr.2
    let qy := splitAtOpt '?' fr.1
    .ok ⟨sr.1, nr.1, qy.1, qy.2, fr.2⟩

/-! ## `S3Path` (the `@dataclass S3Path`) -/

/-- The `S3Path` dataclass: a bucket name and a key (the key keeps the leading
slash that `urlparse` leaves on the path). -/
structure S3Path where
  bucket : String
  key : String
deriving DecidableEq, Repr

/-- `S3Path.from_url`: `urlparse(url)`; on scheme `"s3"` build the path
(`result.netloc is not None` in the source is vacuously true, since `netloc`
is always a string); any other scheme, or no scheme, yields `None`.
A `ValueError` escaping `urlparse` propagates (`.error`). -/
def S3Path.from_url (url : String) : Except Unit (Option S3Path) :=
  match urlsplit url.data with
  | .error e => .error e
  | .ok r =>
    if r.scheme = "s3".data then .ok (some ⟨⟨r.netloc⟩, ⟨r.path⟩⟩) else .ok none

/-- `S3Path.url`: `f"s3://{self.bucket}{self.key}"`. -/
def S3Path.url (p : S3Path) : String := "s3://" ++ p.bucket ++ p.key

/-- Python `s.split("/")` on char lists, accumulator form (`"".split("/") = [""]`,
`"/gmod".split("/") = ["", "gmod"]`). -/
def splitSlashAux : List Char → List Char → List (List Char)
  | [], acc => [acc.reverse]
  | c :: cs, acc =>
    if c = '/' then acc.reverse :: splitSlashAux cs [] else splitSlashAux cs (c :: acc)

/-- Python `key.split("/")`. -/
def splitSlash (l : List Char) : List (List Char) := splitSlashAux l []

/-- Python `"/".join(elements)`. -/
def joinSlash : List (List Char) → List Char
  | [] => []
  | [x] => x
  | x :: xs => x ++ '/' :: joinSlash xs

/-- Python `l.endswith(suf)` on char lists. -/
def hasSuffix (l suf : List Char) : Bool := l.drop (l.length - suf.length) == suf

/-- `S3Path.base_name`: `os.path.basename(self.key)` — the part after the last
slash. -/
def S3Path.base_name (p : S3Path) : String :=
  ⟨(splitSlash p.key.data).getLastD []⟩

/-- `S3Path.navigate(*args)`: split the key on `/`, append the new segments,
re-join with `/` and prepend a single `/` (`f"/{new_path}"`). -/
def S3Path.navigate (p : S3Path) (args : List String) : S3Path :=
  let elements := splitSlash p.key.data
  let new_path := joinSlash (elements ++ args.map String.data)
  ⟨p.bucket, ⟨'/' :: new_path⟩⟩

/-- The full address of an `s3://bucket/key` style string, used to state the
round-trip property. -/
def s3Addr (b k : String) : String := "s3://" ++ b ++ "/" ++ k

/-- Characters legal in a bucket (netloc) position for the round-trip: printable,
not a netloc delimiter, no brackets. -/
def hostChar (ch : Char) : Bool :=
  decide (32 < ch.toNat) && !(ch == '/') && !(ch == '?') && !(ch == '#')
    && !(ch == '[') && !(ch == ']')

/-- Characters legal in a key position for the round-trip: printable and neither
`?` nor `#` (which `urlsplit` would claim for query/fragment). -/
def keyChar (ch : Char) : Bool :=
  decide (32 < ch.toNat) && !(ch == '?') && !(ch == '#')

/-! ### Helper lemmas about the character-list scanners -/

theorem breakAtChar_cons_self (d : Char) (cs : List Char) :
    breakAtChar d (d :: cs) = ([], some cs) := by
  simp [breakAtChar]

theorem breakAtChar_cons_ne (d c : Char) (cs : List Char) (h : c ≠ d) :
    breakAtChar d (c :: cs) =
      ((c :: (breakAtChar d cs).1), (breakAtChar d cs).2) := by
  simp [breakAtChar, h]

theorem breakAtChar_not_mem (d : Char) (l : List Char) (h : ∀ x ∈ l, x ≠ d) :
    breakAtChar d l = (l, none) := by
  induction l with
  | nil => rfl
  | cons c cs ih =>
    rw [breakAtChar_cons_ne d c cs (h c (List.mem_cons_self c cs)),
      ih (fun x hx => h x (List.mem_cons_of_mem c hx))]

theorem takeWhile_append_stop (p : Char → Bool) (l1 l2 : List Char) (a : Char)
    (h : ∀ x ∈ l1, p x = true) (ha : p a = false) :
    (l1 ++ a :: l2).takeWhile p = l1 := by
  induction l1 with
  | nil => simp [List.takeWhile, ha]
  | cons c cs ih =>
    have hc : p c = true := h c (List.mem_cons_self c cs)
    simp only [List.cons_append, List.takeWhile, hc]
    exact congrArg (List.cons c) (ih (fun x hx => h x (List.mem_cons_of_mem c hx)))

theorem dropWhile_append_stop (p : Char → Bool) (l1 l2 : List Char) (a : Char)
    (h : ∀ x ∈ l1, p x = true) (ha : p a = false) :
    (l1 ++ a :: l2).dropWhile p = a :: l2 := by
  induction l1 with
  | nil => simp [List.dropWhile, ha]
  | cons c cs ih =>
    have hc : p c = true := h c (List.mem_cons_self c cs)
    simp only [List.cons_append, List.dropWhile, hc]
    exact ih (fun x hx => h x (List.mem_cons_of_mem c hx))

theorem any_eq_false_of (p : Char → Bool) (l : List Char)
    (h : ∀ x ∈ l, p x = false) : l.any p = false := by
  induction l with
  | nil => rfl
  | cons c cs ih =>
    simp only [List.any_cons, h c (List.mem_cons_self c cs), Bool.false_or]
    exact ih (fun x hx => h x (List.mem_cons_of_mem c hx))

theorem filter_eq_self_of (p : Char → Bool) (l : List Char)
    (h : ∀ x ∈ l, p x = true) : l.filter p = l := by
  induction l with
  | nil => rfl
  | cons c cs ih =>
    simp only [List.filter, h c (List.mem_cons_self c cs)]
    rw [ih (fun x hx => h x (List.mem_cons_of_mem c hx))]

example : S3Path.from_url "" = .ok none := rfl

example : S3Path.from_url "s3://bucket/gmod/maps" =
    .ok (some ⟨"bucket", "/gmod/maps"⟩) := rfl

example : S3Path.from_url "s3://[" = .error () := rfl

example : S3Path.from_url "https://bucket/gmod" = .ok none := rfl

example : S3Path.url ⟨"bucket", "/gmod/maps"⟩ = "s3://bucket/gmod/maps" := rfl

example : S3Path.navigate ⟨"b", "/gmod"⟩ ["manifest.json"] =
    ⟨"b", "//gmod/manifest.json"⟩ := rfl

example : S3Path.base_name ⟨"b", "/gmod/maps/a.bsp.bz2"⟩ = "a.bsp.bz2" := rfl

/-! ## The object store, local filesystem and event trace -/

/-- Python exception classes the script can raise or meet.  `clientErr` is a
`botocore ClientError` escaping a call; `connErr` stands for any non-`ClientError`
failure of the client (e.g. a connection error); the rest are builtin errors:
`keyErr` for `page["Contents"]`, `valueErr` for `urlparse`'s `ValueError`,
`fileNotFound` for opening a missing file, `unsupportedOp` for writing to a
file handle opened read-only, `jsonErr` for `json.load`, `decompressErr` for a
failing bz2 stream. -/
inductive Err where
  | clientErr (code : String)
  | connErr
  | keyErr
  | valueErr
  | fileNotFound
  | unsupportedOp
  | jsonErr
  | decompressErr
  | noneTypeErr
deriving DecidableEq, Repr

/-- Outcome of `head_object`: success, a `ClientError` with an error code
(`"404"`, `"403"`, ...), or a failure outside the `ClientError` hierarchy. -/
inductive HeadResult where
  | found
  | clientError (code : String)
  | connError
deriving DecidableEq, Repr

/-- One page of a `list_objects_v2` pagination: the `"Contents"` entry is
absent (`none`) when the page carries no objects, else a list of keys. -/
structure Page where
  contents : Option (List String)
deriving DecidableEq, Repr

/-- The external object store and black-box codecs, as oracles:
`pages bucket key` is what the paginator yields for that prefix,
`headObject`/`getObject` are the boto3 calls, `jsonDecode` is `json.load`
on a byte stream, `bz2Decompress` is the bz2 stream filter. -/
structure S3World where
  pages : String → String → List Page
  headObject : String → String → HeadResult
  getObject : String → String → Except Err Bytes
  jsonDecode : Bytes → Except Err (List (String × String))
  bz2Decompress : Bytes → Except Err Bytes

/-- Observable actions of a run: remote calls, the static-manifest read and
local file writes. -/
inductive Event where
  | listPage (bucket key : String)
  | headObj (bucket key : String)
  | getObj (bucket key : String)
  | staticRead (path : List String)
  | fsWrite (path : List String)
deriving DecidableEq, Repr

/-- Local state: files (path segments to bytes), existing directories, and the
trace of events so far. -/
structure St where
  files : List (List String × Bytes)
  dirs : List (List String)
  trace : List Event
deriving DecidableEq, Repr

/-- Append one event to the trace. -/
def St.log (st : St) (e : Event) : St := { st with trace := st.trace ++ [e] }

/-- Content of the file at `p`, if any. -/
def St.lookupFile (st : St) (p : List String) : Option Bytes :=
  (st.files.find? (fun e => e.1 == p)).map (fun e => e.2)

/-- Overwrite (or create) the file at `p`; logged as a write. -/
def St.writeFile (st : St) (p : List String) (b : Bytes) : St :=
  { st with
    files := (p, b) :: st.files.filter (fun e => !(e.1 == p)),
    trace := st.trace ++ [.fsWrite p] }

/-- `d` is `p` itself or an ancestor directory of `p`. -/
def leadsWith (d p : List String) : Bool := p.take d.length == d

/-- Tear-down of a `TemporaryDirectory`: the directory and every file under it
are removed (no trace event: deletion is not one of the observed actions). -/
def St.cleanupDir (st : St) (d : List String) : St :=
  { st with
    files := st.files.filter (fun e => !leadsWith d e.1),
    dirs := st.dirs.filter (fun x => !leadsWith d x) }

/-- `path.open("wb")`: requires the parent directory to exist, creates or
truncates the file (so a failed later write leaves an empty file behind). -/
def St.openWb (st : St) (p : List String) : Except (Err × St) St :=
  if p.dropLast ∈ st.dirs then .ok (st.writeFile p []) else .error (.fileNotFound, st)

/-! ## `S3Path` client methods -/

/-- `S3Path.is_object`: `head_object` under `try/except ClientError: return False`.
Every `ClientError` — whatever its code — yields `False`; only a failure outside
the `ClientError` hierarchy propagates. -/
def S3Path.is_object (p : S3Path) (w : S3World) (st : St) :
    Except (Err × St) (Bool × St) :=
  let st := st.log (.headObj p.bucket p.key)
  match w.headObject p.bucket p.key with
  | .found => .ok (true, st)
  | .clientError _ => .ok (false, st)
  | .connError => .error (.connErr, st)

/-- `S3Path.load_json`: `get_object` then `json.load` on the body; any failure
propagates. -/
def S3Path.load_json (p : S3Path) (w : S3World) (st : St) :
    Except (Err × St) (List (String × String) × St) :=
  let st := st.log (.getObj p.bucket p.key)
  match w.getObject p.bucket p.key with
  | .error e => .error (e, st)
  | .ok body =>
    match w.jsonDecode body with
    | .error e => .error (e, st)
    | .ok m => .ok (m, st)

/-- `S3Path.get`: `download_fileobj` — fetches the object body (the caller
writes it into the open file handle). -/
def S3Path.get (p : S3Path) (w : S3World) (st : St) :
    Except (Err × St) (Bytes × St) :=
  let st := st.log (.getObj p.bucket p.key)
  match w.getObject p.bucket p.key with
  | .error e => .error (e, st)
  | .ok b => .ok (b, st)

/-! ## `RuntimeContext` -/

/-- The `RuntimeContext` dataclass (the boto3 session/client live in `S3World`). -/
structure RuntimeContext where
  map_location : Option S3Path
  config_location : Option S3Path
  working_dir : List String
  home_dir : List String
deriving DecidableEq, Repr

/-- `is_maps_provided`. -/
def RuntimeContext.is_maps_provided (ctx : RuntimeContext) : Bool :=
  ctx.map_location.isSome

/-- `is_config_provided`. -/
def RuntimeContext.is_config_provided (ctx : RuntimeContext) : Bool :=
  ctx.config_location.isSome

/-- `map_dir`: `working_dir / "maps"`. -/
def RuntimeContext.map_dir (ctx : RuntimeContext) : List String :=
  ctx.working_dir ++ ["maps"]

/-- `static_manifest_path`: `home_dir / "manifest.json"`. -/
def RuntimeContext.static_manifest_path (ctx : RuntimeContext) : List String :=
  ctx.home_dir ++ ["manifest.json"]

/-- The static branch of `config_manifest`: `with static_manifest_path.open() as
fd: return json.load(fd)`. -/
def RuntimeContext.readStaticManifest (ctx : RuntimeContext) (w : S3World) (st : St) :
    Except (Err × St) (List (String × String) × St) :=
  let st := st.log (.staticRead ctx.static_manifest_path)
  match st.lookupFile ctx.static_manifest_path with
  | none => .error (.fileNotFound, st)
  | some body =>
    match w.jsonDecode body with
    | .error e => .error (e, st)
    | .ok m => .ok (m, st)

/-- `config_manifest`: probe `config_location.navigate("manifest.json")`; if the
probe answers `True`, fetch and parse the dynamic manifest; otherwise read the
static local manifest.  (`self.config_location` being `None` here would be an
`AttributeError`; `main` guards the call.) -/
def RuntimeContext.config_manifest (ctx : RuntimeContext) (w : S3World) (st : St) :
    Except (Err × St) (List (String × String) × St) :=
  match ctx.config_location with
  | none => .error (.noneTypeErr, st)
  | some cl =>
    let dynamic_manifest := cl.navigate ["manifest.json"]
    match dynamic_manifest.is_object w st with
    | .error es => .error es
    | .ok (true, st) => dynamic_manifest.load_json w st
    | .ok (false, st) => ctx.readStaticManifest w st

/-! ## Map synchronizer -/

/-- The scratch directory handed out by `tempfile.TemporaryDirectory()`; fresh,
outside the working directory. -/
def scratchDir : List String := ["tmp", "scratch"]

/-- `download_map(tmpdir, obj)`:
`tmpfile = tmpdir / obj.base_name`; `mapfile = self.map_dir / obj.base_name`
(note: `base_name` keeps the `.bz2` suffix).  The object is fetched into the
scratch file; then `bz2.BZ2File(tmpfile)` is opened together with
`mapfile.open("rb")` — read mode — and `shutil.copyfileobj` streams the
decompressed bytes into the read-only handle.  Consequences, faithfully
embedded: a missing destination file raises `FileNotFoundError`; otherwise the
first decompressed chunk raises the bz2 error if the stream is corrupt, an
`io.UnsupportedOperation` on write if it is non-empty, and only a stream that
decompresses to zero bytes completes (copying nothing). -/
def RuntimeContext.download_map (ctx : RuntimeContext) (w : S3World)
    (tmpdir : List String) (obj : S3Path) (st : St) : Except (Err × St) St :=
  let tmpfile := tmpdir ++ [obj.base_name]
  let mapfile := ctx.map_dir ++ [obj.base_name]
  match st.openWb tmpfile with
  | .error es => .error es
  | .ok st =>
    match obj.get w st with
    | .error es => .error es
    | .ok (body, st) =>
      let st := st.writeFile tmpfile body
      if (st.lookupFile mapfile).isSome then
        match w.bz2Decompress body with
        | .error e => .error (e, st)
        | .ok data => if data = [] then .ok st else .error (.unsupportedOp, st)
      else .error (.fileNotFound, st)

/-- The inner loop of `download_maps` over the objects one listing page
yielded (already filtered to `.bsp.bz2` keys by the `maps` generator). -/
def RuntimeContext.downloadObjs (ctx : RuntimeContext) (w : S3World)
    (tmpdir : List String) : List S3Path → St → Except (Err × St) St
  | [], st => .ok st
  | o :: os, st =>
    match ctx.download_map w tmpdir o st with
    | .error es => .error es
    | .ok st => ctx.downloadObjs w tmpdir os st

/-- The `for obj in self.maps` loop: the lazy `ls` generator fetches one page at
a time (`page["Contents"]` raises `KeyError` when the page has no `Contents`),
filters keys ending in `.bsp.bz2`, and the loop body downloads each object
before the next page is fetched. -/
def RuntimeContext.downloadLoop (ctx : RuntimeContext) (w : S3World) (ml : S3Path)
    (tmpdir : List String) : List Page → St → Except (Err × St) St
  | [], st => .ok st
  | pg :: rest, st =>
    let st := st.log (.listPage ml.bucket ml.key)
    match pg.contents with
    | none => .error (.keyErr, st)
    | some keys =>
      match ctx.downloadObjs w tmpdir
          ((keys.filter (fun k => hasSuffix k.data ".bsp.bz2".data)).map
            (fun k => S3Path.mk ml.bucket k)) st with
      | .error es => .error es
      | .ok st => ctx.downloadLoop w ml tmpdir rest st

/-- `download_maps`: `with tempfile.TemporaryDirectory() as tmpdir:` — the
scratch directory exists for the duration of the loop and is torn down on both
exits, after which the result (value or exception) passes through. -/
def RuntimeContext.download_maps (ctx : RuntimeContext) (w : S3World) (st : St) :
    Except (Err × St) St :=
  let st1 : St := { st with dirs := scratchDir :: st.dirs }
  let res : Except (Err × St) St :=
    match ctx.map_location with
    | none => .error (Err.noneTypeErr, st1)
    | some ml => ctx.downloadLoop w ml scratchDir (w.pages ml.bucket ml.key) st1
  match res with
  | .ok st2 => .ok (st2.cleanupDir scratchDir)
  | .error (e, st2) => .error (e, st2.cleanupDir scratchDir)

/-! ## Config synchronizer -/

/-- `download_configuration_file(filename, directory)`:
`target_path = working_dir / directory / filename` is opened `"wb"` (creating
or truncating it), then the child object named `filename` is fetched into it. -/
def RuntimeContext.download_configuration_file (ctx : RuntimeContext) (w : S3World)
    (filename directory : String) (st : St) : Except (Err × St) St :=
  match ctx.config_location with
  | none => .error (.noneTypeErr, st)
  | some cl =>
    let target_path := ctx.working_dir ++ [directory, filename]
    let source_path := cl.navigate [filename]
    match st.openWb target_path with
    | .error es => .error es
    | .ok st =>
      match source_path.get w st with
      | .error es => .error es
      | .ok (body, st) => .ok (st.writeFile target_path body)

/-- The `for filename, directory in self.config_manifest.items()` loop. -/
def RuntimeContext.configLoop (ctx : RuntimeContext) (w : S3World) :
    List (String × String) → St → Except (Err × St) St
  | [], st => .ok st
  | (filename, directory) :: rest, st =>
    match ctx.download_configuration_file w filename directory st with
    | .error es => .error es
    | .ok st => ctx.configLoop w rest st

/-- `download_configuration_files`: resolve the manifest, then download each
entry in iteration order. -/
def RuntimeContext.download_configuration_files (ctx : RuntimeContext) (w : S3World)
    (st : St) : Except (Err × St) St :=
  match ctx.config_manifest w st with
  | .error es => .error es
  | .ok (manifest, st) => ctx.configLoop w manifest st

/-! ## Orchestrator -/

/-- `main` after `parse_args`: build the context from the two url strings
(`from_urls`; an exception from `urlparse` propagates), run the maps phase when
a maps location is present, then the config phase when a config location is
present, and return success (`0` / `.ok`).  The `print` calls are not
modelled. -/
def mainRun (w : S3World) (wd hd : List String) (maps_url config_url : String)
    (st : St) : Except (Err × St) St :=
  match S3Path.from_url maps_url with
  | .error _ => .error (.valueErr, st)
  | .ok ml =>
    match S3Path.from_url config_url with
    | .error _ => .error (.valueErr, st)
    | .ok cl =>
      let ctx : RuntimeContext := ⟨ml, cl, wd, hd⟩
      match (if ctx.is_maps_provided then ctx.download_maps w st else .ok st) with
      | .error es => .error es
      | .ok st =>
        match (if ctx.is_config_provided then ctx.download_configuration_files w st
               else .ok st) with
        | .error es => .error es
        | .ok st => .ok st

/-! ### Stage lemmas for the round-trip property -/

theorem hostChar_printable (ch : Char) (h : hostChar ch = true) : 32 < ch.toNat := by
  unfold hostChar at h
  simp only [Bool.and_eq_true, decide_eq_true_eq] at h
  exact h.1.1.1.1.1

theorem keyChar_printable (ch : Char) (h : keyChar ch = true) : 32 < ch.toNat := by
  unfold keyChar at h
  simp only [Bool.and_eq_true, decide_eq_true_eq] at h
  exact h.1.1

theorem printable_kept (ch : Char) (h : 32 < ch.toNat) : (!removedByte ch) = true := by
  unfold removedByte
  simp only [Bool.not_eq_true', Bool.or_eq_false_iff, beq_eq_false_iff_ne, ne_eq]
  refine ⟨⟨fun he => ?_, fun he => ?_⟩, fun he => ?_⟩ <;> subst he <;> simp at h

theorem hostChar_ne (ch x : Char) (h : hostChar ch = true)
    (hx : x = '/' ∨ x = '?' ∨ x = '#' ∨ x = '[' ∨ x = ']') : ch ≠ x := by
  unfold hostChar at h
  simp only [Bool.and_eq_true, Bool.not_eq_true', beq_eq_false_iff_ne, ne_eq] at h
  rcases hx with rfl | rfl | rfl | rfl | rfl
  · exact h.1.1.1.1.2
  · exact h.1.1.1.2
  · exact h.1.1.2
  · exact h.1.2
  · exact h.2

theorem keyChar_ne (ch x : Char) (h : keyChar ch = true)
    (hx : x = '?' ∨ x = '#') : ch ≠ x := by
  unfold keyChar at h
  simp only [Bool.and_eq_true, Bool.not_eq_true', beq_eq_false_iff_ne, ne_eq] at h
  rcases hx with rfl | rfl
  · exact h.1.2
  · exact h.2

theorem preprocess_s3_addr (c k : List Char) (hc : c.all hostChar = true)
    (hk : k.all keyChar = true) :
    preprocess ('s' :: '3' :: ':' :: '/' :: '/' :: (c ++ '/' :: k)) =
      's' :: '3' :: ':' :: '/' :: '/' :: (c ++ '/' :: k) := by
  unfold preprocess
  rw [List.dropWhile_cons]
  rw [if_neg (by decide)]
  apply filter_eq_self_of
  intro x hx
  simp only [List.mem_cons, List.mem_append] at hx
  rcases hx with rfl | rfl | rfl | rfl | rfl | hx | hx
  · decide
  · decide
  · decide
  · decide
  · decide
  · exact printable_kept x (hostChar_printable x (List.all_eq_true.mp hc x hx))
  · rcases hx with rfl | hx
    · decide
    · exact printable_kept x (keyChar_printable x (List.all_eq_true.mp hk x hx))

theorem splitScheme_s3 (rest : List Char) :
    splitScheme ('s' :: '3' :: ':' :: rest) = (['s', '3'], rest) := by
  unfold splitScheme
  rw [breakAtChar_cons_ne ':' 's' _ (by decide),
    breakAtChar_cons_ne ':' '3' _ (by decide), breakAtChar_cons_self]
  simp only []
  rw [if_pos (by decide)]
  rfl

theorem hostChar_netloc_ok (ch : Char) (h : hostChar ch = true) :
    notNetlocDelim ch = true := by
  unfold notNetlocDelim
  simp only [Bool.not_eq_true', Bool.or_eq_false_iff, beq_eq_false_iff_ne, ne_eq]
  exact ⟨⟨hostChar_ne ch '/' h (by tauto), hostChar_ne ch '?' h (by tauto)⟩,
    hostChar_ne ch '#' h (by tauto)⟩

theorem splitNetloc_s3_addr (c k : List Char) (hc : c.all hostChar = true) :
    splitNetloc ('/' :: '/' :: (c ++ '/' :: k)) = (c, '/' :: k) := by
  show ((c ++ '/' :: k).takeWhile notNetlocDelim,
    (c ++ '/' :: k).dropWhile notNetlocDelim) = (c, '/' :: k)
  rw [takeWhile_append_stop notNetlocDelim c k '/'
      (fun x hx => hostChar_netloc_ok x (List.all_eq_true.mp hc x hx)) (by decide),
    dropWhile_append_stop notNetlocDelim c k '/'
      (fun x hx => hostChar_netloc_ok x (List.all_eq_true.mp hc x hx)) (by decide)]

theorem bracketBad_host (c : List Char) (hc : c.all hostChar = true) :
    bracketBad c = false := by
  unfold bracketBad
  have h1 : c.any (fun x => x == '[') = false := by
    apply any_eq_false_of
    intro x hx
    simp only [beq_eq_false_iff_ne, ne_eq]
    exact hostChar_ne x '[' (List.all_eq_true.mp hc x hx) (by tauto)
  have h2 : c.any (fun x => x == ']') = false := by
    apply any_eq_false_of
    intro x hx
    simp only [beq_eq_false_iff_ne, ne_eq]
    exact hostChar_ne x ']' (List.all_eq_true.mp hc x hx) (by tauto)
  rw [h1, h2]
  rfl

theorem splitAtOpt_not_mem (d : Char) (l : List Char) (h : ∀ x ∈ l, x ≠ d) :
    splitAtOpt d l = (l, []) := by
  unfold splitAtOpt
  rw [breakAtChar_not_mem d l h]

theorem urlsplit_s3_addr (c k : List Char) (hc : c.all hostChar = true)
    (hk : k.all keyChar = true) :
    urlsplit ('s' :: '3' :: ':' :: '/' :: '/' :: (c ++ '/' :: k)) =
      .ok ⟨['s', '3'], c, '/' :: k, [], []⟩ := by
  have hpathsafe : ∀ (d : Char), (d = '?' ∨ d = '#') → ∀ x ∈ '/' :: k, x ≠ d := by
    intro d hd x hx
    simp only [List.mem_cons] at hx
    rcases hx with rfl | hx
    · rcases hd with rfl | rfl
      · decide
      · decide
    · exact keyChar_ne x d (List.all_eq_true.mp hk x hx) hd
  unfold urlsplit
  rw [preprocess_s3_addr c k hc hk, splitScheme_s3]
  dsimp only []
  rw [splitNetloc_s3_addr c k hc]
  dsimp only []
  rw [if_neg (by rw [bracketBad_host c hc]; exact Bool.false_ne_true)]
  rw [splitAtOpt_not_mem '#' ('/' :: k) (hpathsafe '#' (by tauto))]
  dsimp only []
  rw [splitAtOpt_not_mem '?' ('/' :: k) (hpathsafe '?' (by tauto))]

/-! ### Split/join lemmas for `navigate` -/

theorem splitSlashAux_ne_nil (l acc : List Char) : splitSlashAux l acc ≠ [] := by
  induction l generalizing acc with
  | nil => simp [splitSlashAux]
  | cons c cs ih =>
    by_cases h : c = '/'
    · simp [splitSlashAux, h]
    · simpa [splitSlashAux, h] using ih (c :: acc)

theorem joinSlash_cons_of_ne (x : List Char) (xs : List (List Char)) (h : xs ≠ []) :
    joinSlash (x :: xs) = x ++ '/' :: joinSlash xs := by
  cases xs with
  | nil => exact absurd rfl h
  | cons y ys => rfl

theorem joinSlash_splitSlashAux (l acc : List Char) :
    joinSlash (splitSlashAux l acc) = acc.reverse ++ l := by
  induction l generalizing acc with
  | nil => simp [splitSlashAux, joinSlash]
  | cons c cs ih =>
    by_cases h : c = '/'
    · subst h
      rw [show splitSlashAux ('/' :: cs) acc = acc.reverse :: splitSlashAux cs [] by
        simp [splitSlashAux]]
      rw [joinSlash_cons_of_ne _ _ (splitSlashAux_ne_nil cs []), ih []]
      simp
    · rw [show splitSlashAux (c :: cs) acc = splitSlashAux cs (c :: acc) by
        simp [splitSlashAux, h]]
      rw [ih (c :: acc)]
      simp

theorem joinSlash_splitSlash (l : List Char) : joinSlash (splitSlash l) = l := by
  simpa using joinSlash_splitSlashAux l []

/-! ## Claim C4 -/

/-- C4: `navigate` (the source of the spec's `child`) returns a new location
with the same container identifier (`bucket`); its key is the `/`-split
segments of the original key (as Python's `str.split` produces them, a leading
separator contributing an empty first segment) followed by the given segments,
re-joined with `/` and re-rooted by prepending a single separator; and the
segments faithfully carry the original key (`joinSlash (splitSlash key) = key`).
The receiver is a value in this embedding, so the original location is
unmodified by construction. -/
theorem navigate_is_child (loc : S3Path) (segs : List String) :
    (loc.navigate segs).bucket = loc.bucket ∧
    (loc.navigate segs).key.data =
      '/' :: joinSlash (splitSlash loc.key.data ++ segs.map String.data) ∧
    joinSlash (splitSlash loc.key.data) = loc.key.data :=
  ⟨rfl, rfl, joinSlash_splitSlash loc.key.data⟩

/-! ## Claim C5 -/

theorem s3Addr_data (c k : List Char) :
    (s3Addr ⟨c⟩ ⟨k⟩).data = 's' :: '3' :: ':' :: '/' :: '/' :: (c ++ '/' :: k) := by
  show ("s3://" ++ String.mk c ++ "/" ++ String.mk k).data = _
  rw [String.data_append, String.data_append, String.data_append]
  show ['s', '3', ':', '/', '/'] ++ c ++ ['/'] ++ k = _
  simp

/-- C5 counterexample: the claim promises that `parse` "never raises" on
malformed input, but `urlparse` raises `ValueError` (`Invalid IPv6 URL`) for
the malformed address `"s3://["` — an unbalanced bracket in the authority — so
`from_url` propagates an exception instead of returning absence. -/
theorem from_url_raises_on_bad_bracket : S3Path.from_url "s3://[" = .error () := rfl

/-- C5 (amended): for addresses `s3://C/K` whose container `C` is non-empty
and whose components contain no URL metacharacters (`C` without `/ ? # [ ]`,
`K` without `? #`, both without control characters or space), `parse` followed
by `canonical_address` reproduces the original address; the empty string
parses to absence; and any address whose parsed scheme is not `s3` parses to
absence.  (The original claim's "never raises for malformed URLs" is dropped:
see the counterexample.) -/
theorem parse_roundtrip_amended (c k : List Char) (u : String) (r : UrlSplitResult)
    (_hc0 : c ≠ []) (hc : c.all hostChar = true) (hk : k.all keyChar = true)
    (hu : urlsplit u.data = .ok r) (hs : r.scheme ≠ "s3".data) :
    S3Path.from_url (s3Addr ⟨c⟩ ⟨k⟩) = .ok (some ⟨⟨c⟩, ⟨'/' :: k⟩⟩) ∧
    S3Path.url ⟨⟨c⟩, ⟨'/' :: k⟩⟩ = s3Addr ⟨c⟩ ⟨k⟩ ∧
    S3Path.from_url "" = .ok none ∧
    S3Path.from_url u = .ok none := by
  refine ⟨?_, ?_, rfl, ?_⟩
  · unfold S3Path.from_url
    rw [s3Addr_data, urlsplit_s3_addr c k hc hk]
    rfl
  · apply String.ext
    show ("s3://" ++ String.mk c ++ String.mk ('/' :: k)).data = _
    rw [String.data_append, String.data_append, s3Addr_data]
    simp
  · unfold S3Path.from_url
    rw [hu]
    simp only []
    rw [if_neg hs]

/-- C5 witness: the amended round-trip at the concrete address
`s3://bucket/gmod/maps`, and absence for the `https` scheme. -/
theorem parse_roundtrip_amended_witness :
    S3Path.from_url (s3Addr "bucket" "gmod/maps") =
      .ok (some ⟨"bucket", "/gmod/maps"⟩) ∧
    S3Path.url ⟨"bucket", "/gmod/maps"⟩ = s3Addr "bucket" "gmod/maps" ∧
    S3Path.from_url "" = .ok none ∧
    S3Path.from_url "https://bucket/gmod" = .ok none :=
  parse_roundtrip_amended "bucket".data "gmod/maps".data "https://bucket/gmod"
    ⟨"https".data, "bucket".data, "/gmod".data, [], []⟩
    (by decide) (by decide) (by decide) rfl (by decide)

/-! ## Concrete artifacts shared by several checks -/

/-- Parsed content of the static manifest body `staticBody`. -/
def staticManifest : List (String × String) := [("server.cfg", "cfg")]

/-- Raw bytes of the bundled static manifest file. -/
def staticBody : Bytes := [7]

/-- A starting state: static manifest present under the home directory, the
`maps` and `cfg` destination directories exist, empty trace. -/
def stBase : St :=
  { files := [(["home", "manifest.json"], staticBody)]
    dirs := [["srv", "maps"], ["srv", "cfg"]]
    trace := [] }

/-- A context with both locations provided, working dir `/srv`, home `/home`. -/
def ctxBase : RuntimeContext :=
  ⟨some ⟨"fastdl", "/gmod/maps"⟩, some ⟨"conf", "/gmod"⟩, ["srv"], ["home"]⟩

/-- A world whose `head_object` fails with an access-denied `ClientError`
(code 403 — not a "not found") and whose listings are empty. -/
def wDenied : S3World :=
  { pages := fun _ _ => []
    headObject := fun _ _ => .clientError "403"
    getObject := fun _ _ => .error .connErr
    jsonDecode := fun b => if b == staticBody then .ok staticManifest else .error .jsonErr
    bz2Decompress := fun _ => .error .decompressErr }

/-- A world whose `head_object` fails outside the `ClientError` hierarchy. -/
def wConn : S3World :=
  { wDenied with headObject := fun _ _ => .connError }

/-! ## Claim C1 -/

/-- C1 counterexample: with an access-denied `ClientError` (code `"403"`, not a
"not found") raised during the existence probe, the claim demands a fatal
abort; instead `config_manifest` returns successfully with the static
manifest's parsed content — the probe's bare `except ClientError: return
False` silently selects the static fallback. -/
theorem probe_denied_falls_back :
    ctxBase.config_manifest wDenied stBase =
      .ok (staticManifest,
        (stBase.log (.headObj "conf" "//gmod/manifest.json")).log
          (.staticRead ["home", "manifest.json"])) := rfl

/-- C1 (amended): the existence probe treats every object-store `ClientError`
— whatever its error code, including access-denied — as a negative result, so
any `ClientError` during the probe selects the static-manifest fallback; only
a failure outside the `ClientError` hierarchy (e.g. a connection error)
propagates and aborts the run. -/
theorem probe_policy_amended (ctx : RuntimeContext) (cl : S3Path)
    (w1 w2 : S3World) (code : String) (st : St)
    (hcl : ctx.config_location = some cl)
    (h1 : w1.headObject (cl.navigate ["manifest.json"]).bucket
      (cl.navigate ["manifest.json"]).key = .clientError code)
    (h2 : w2.headObject (cl.navigate ["manifest.json"]).bucket
      (cl.navigate ["manifest.json"]).key = .connError) :
    ctx.config_manifest w1 st =
      ctx.readStaticManifest w1
        (st.log (.headObj (cl.navigate ["manifest.json"]).bucket
          (cl.navigate ["manifest.json"]).key)) ∧
    ctx.config_manifest w2 st =
      .error (.connErr,
        st.log (.headObj (cl.navigate ["manifest.json"]).bucket
          (cl.navigate ["manifest.json"]).key)) := by
  constructor
  · unfold RuntimeContext.config_manifest
    rw [hcl]
    unfold S3Path.is_object
    dsimp only []
    rw [h1]
  · unfold RuntimeContext.config_manifest
    rw [hcl]
    unfold S3Path.is_object
    dsimp only []
    rw [h2]

/-- C1 witness: the amended probe policy at the concrete context and worlds. -/
theorem probe_policy_amended_witness :
    ctxBase.config_manifest wDenied stBase =
      ctxBase.readStaticManifest wDenied
        (stBase.log (.headObj "conf" "//gmod/manifest.json")) ∧
    ctxBase.config_manifest wConn stBase =
      .error (.connErr, stBase.log (.headObj "conf" "//gmod/manifest.json")) :=
  probe_policy_amended ctxBase ⟨"conf", "/gmod"⟩ wDenied wConn "403" stBase rfl rfl rfl

/-! ## Claim C3 -/

theorem lookupFile_log (st : St) (ev : Event) (p : List String) :
    (st.log ev).lookupFile p = st.lookupFile p := rfl

/-- C3: manifest resolution probes `config_location/manifest.json` first; if
the probe answers positively the fetched and parsed dynamic manifest is
returned and the final trace is exactly probe-then-fetch (in particular the
static file is never read); if the probe answers "not found" (code 404) the
parsed static file is returned and the final trace is exactly
probe-then-static-read (in particular no remote fetch of the dynamic manifest
is ever attempted). -/
theorem config_manifest_resolution (ctx : RuntimeContext) (cl : S3Path)
    (w1 w2 : S3World) (st : St) (body sb : Bytes) (m sm : List (String × String))
    (hcl : ctx.config_location = some cl)
    (h1 : w1.headObject (cl.navigate ["manifest.json"]).bucket
      (cl.navigate ["manifest.json"]).key = .found)
    (h1b : w1.getObject (cl.navigate ["manifest.json"]).bucket
      (cl.navigate ["manifest.json"]).key = .ok body)
    (h1c : w1.jsonDecode body = .ok m)
    (h2 : w2.headObject (cl.navigate ["manifest.json"]).bucket
      (cl.navigate ["manifest.json"]).key = .clientError "404")
    (h2b : st.lookupFile ctx.static_manifest_path = some sb)
    (h2c : w2.jsonDecode sb = .ok sm) :
    ctx.config_manifest w1 st =
      .ok (m, (st.log (.headObj (cl.navigate ["manifest.json"]).bucket
          (cl.navigate ["manifest.json"]).key)).log
        (.getObj (cl.navigate ["manifest.json"]).bucket
          (cl.navigate ["manifest.json"]).key)) ∧
    ctx.config_manifest w2 st =
      .ok (sm, (st.log (.headObj (cl.navigate ["manifest.json"]).bucket
          (cl.navigate ["manifest.json"]).key)).log
        (.staticRead ctx.static_manifest_path)) := by
  constructor
  · unfold RuntimeContext.config_manifest
    rw [hcl]
    unfold S3Path.is_object
    dsimp only []
    rw [h1]
    unfold S3Path.load_json
    dsimp only []
    rw [h1b]
    dsimp only []
    rw [h1c]
  · unfold RuntimeContext.config_manifest
    rw [hcl]
    unfold S3Path.is_object
    dsimp only []
    rw [h2]
    unfold RuntimeContext.readStaticManifest
    dsimp only []
    rw [lookupFile_log, lookupFile_log, h2b]
    dsimp only []
    rw [h2c]

/-- Raw bytes of the dynamic manifest object in `wDyn`. -/
def dynBody : Bytes := [3]

/-- Parsed content of the dynamic manifest object in `wDyn`. -/
def dynManifestContent : List (String × String) := [("motd.txt", "cfg")]

/-- A world where the dynamic manifest exists. -/
def wDyn : S3World :=
  { pages := fun _ _ => []
    headObject := fun _ _ => .found
    getObject := fun _ _ => .ok dynBody
    jsonDecode := fun b =>
      if b == dynBody then .ok dynManifestContent
      else if b == staticBody then .ok staticManifest
      else .error .jsonErr
    bz2Decompress := fun _ => .error .decompressErr }

/-- A world whose probe answers with a genuine not-found `ClientError`. -/
def wNotFound : S3World :=
  { wDyn with headObject := fun _ _ => .clientError "404" }

/-- C3 witness: resolution at the concrete context, once with the dynamic
manifest present and once with a genuine 404. -/
theorem config_manifest_resolution_witness :
    ctxBase.config_manifest wDyn stBase =
      .ok (dynManifestContent,
        (stBase.log (.headObj "conf" "//gmod/manifest.json")).log
          (.getObj "conf" "//gmod/manifest.json")) ∧
    ctxBase.config_manifest wNotFound stBase =
      .ok (staticManifest,
        (stBase.log (.headObj "conf" "//gmod/manifest.json")).log
          (.staticRead ["home", "manifest.json"])) :=
  config_manifest_resolution ctxBase ⟨"conf", "/gmod"⟩ wDyn wNotFound stBase
    dynBody staticBody dynManifestContent staticManifest rfl rfl rfl rfl rfl rfl rfl

/-! ## Claim C8 -/

/-- C8: when both source parameters parse to absence (absent or unparsable),
the run returns success (`.ok`, i.e. exit code 0) with the state returned
unchanged — in particular the trace gains no event (zero remote calls) and the
file map is untouched (zero filesystem writes). -/
theorem both_absent_is_noop (w : S3World) (wd hd : List String) (mu cu : String)
    (st : St) (hm : S3Path.from_url mu = .ok none)
    (hcu : S3Path.from_url cu = .ok none) :
    mainRun w wd hd mu cu st = .ok st := by
  unfold mainRun
  rw [hm, hcu]
  rfl

/-- C8 witness: the no-op run at the empty argument strings (the `argparse`
defaults) in a concrete world and state. -/
theorem both_absent_is_noop_witness :
    mainRun wDenied ["srv"] ["home"] "" "" stBase = .ok stBase :=
  both_absent_is_noop wDenied ["srv"] ["home"] "" "" stBase rfl rfl

/-! ## Claim C10 -/

/-- C10: when the single listing page carries no `Contents` entry (the prefix
matches no objects), enumeration raises `KeyError` instead of yielding the
empty sequence: the maps phase ends in `.error .keyErr` — not a successful
no-op — after exactly one page fetch. -/
theorem empty_listing_raises (ctx : RuntimeContext) (w : S3World) (ml : S3Path)
    (st : St) (hm : ctx.map_location = some ml)
    (hp : w.pages ml.bucket ml.key = [⟨none⟩]) :
    ctx.download_maps w st =
      .error (.keyErr,
        (({ st with dirs := scratchDir :: st.dirs } : St).log
          (.listPage ml.bucket ml.key)).cleanupDir scratchDir) := by
  unfold RuntimeContext.download_maps
  rw [hm]
  dsimp only []
  rw [hp]
  rfl

/-- A world listing a single page with no `Contents` entry. -/
def wPageNone : S3World := { wDenied with pages := fun _ _ => [⟨none⟩] }

/-- C10 witness: the empty-prefix maps phase at the concrete context errors. -/
theorem empty_listing_raises_witness :
    ctxBase.download_maps wPageNone stBase =
      .error (.keyErr,
        (({ stBase with dirs := scratchDir :: stBase.dirs } : St).log
          (.listPage "fastdl" "/gmod/maps")).cleanupDir scratchDir) :=
  empty_listing_raises ctxBase wPageNone ⟨"fastdl", "/gmod/maps"⟩ stBase rfl rfl

/-! ## Claim C7 -/

theorem lookupFile_cleanupDir (st : St) (d p : List String)
    (h : leadsWith d p = true) : (st.cleanupDir d).lookupFile p = none := by
  have hfind : ((st.files.filter fun e => !leadsWith d e.1).find? fun e => e.1 == p)
      = none := by
    rw [List.find?_eq_none]
    intro x hx hbeq
    rw [List.mem_filter] at hx
    have hxp : x.1 = p := by simpa using hbeq
    rw [hxp, h] at hx
    simp at hx
  unfold St.cleanupDir St.lookupFile
  dsimp only []
  rw [hfind]
  rfl

theorem download_maps_cleans (ctx : RuntimeContext) (w : S3World) (st : St) :
    (∃ s : St, ctx.download_maps w st = .ok (s.cleanupDir scratchDir)) ∨
    (∃ (e : Err) (s : St),
      ctx.download_maps w st = .error (e, s.cleanupDir scratchDir)) := by
  unfold RuntimeContext.download_maps
  cases ctx.map_location with
  | none => exact .inr ⟨_, _, rfl⟩
  | some ml =>
    dsimp only []
    cases hr : ctx.downloadLoop w ml scratchDir (w.pages ml.bucket ml.key)
        { st with dirs := scratchDir :: st.dirs } with
    | ok s => exact .inl ⟨s, rfl⟩
    | error es => exact .inr ⟨es.1, es.2, by cases es; rfl⟩

/-- C7: whichever way the maps phase ends — success or any failure, including
one raised mid-loop by `download_map` — the state it ends with has no file
under the scratch directory: the `TemporaryDirectory` scope removes the
scratch area and everything written into it on every exit path. -/
theorem scratch_always_cleaned (ctx : RuntimeContext) (w : S3World) (st : St)
    (p : List String) (hp : leadsWith scratchDir p = true) :
    (∀ st2, ctx.download_maps w st = .ok st2 → st2.lookupFile p = none) ∧
    (∀ e st2, ctx.download_maps w st = .error (e, st2) → st2.lookupFile p = none) := by
  rcases download_maps_cleans ctx w st with ⟨s, hok⟩ | ⟨e0, s, herr⟩
  · constructor
    · intro st2 h2
      rw [hok] at h2
      injection h2 with h3
      rw [← h3]
      exact lookupFile_cleanupDir s scratchDir p hp
    · intro e st2 h2
      rw [hok] at h2
      exact absurd h2 (by simp)
  · constructor
    · intro st2 h2
      rw [herr] at h2
      exact absurd h2 (by simp)
    · intro e st2 h2
      rw [herr] at h2
      injection h2 with h3
      rw [show st2 = s.cleanupDir scratchDir from (congrArg Prod.snd h3).symm]
      exact lookupFile_cleanupDir s scratchDir p hp

/-- C7 witness: after the failing maps phase of `wPageNone`, a concrete path
under the scratch directory is absent. -/
theorem scratch_always_cleaned_witness :
    ((({ stBase with dirs := scratchDir :: stBase.dirs } : St).log
      (.listPage "fastdl" "/gmod/maps")).cleanupDir scratchDir).lookupFile
        ["tmp", "scratch", "a.bsp.bz2"] = none :=
  (scratch_always_cleaned ctxBase wPageNone stBase ["tmp", "scratch", "a.bsp.bz2"]
      (by decide)).2 .keyErr _ rfl

/-! ## Claim C2 -/

/-- A world listing three objects under the maps prefix (one page), every
fetch succeeding and every object decompressing to the non-empty stream
`[9, 9]`. -/
def wMaps : S3World :=
  { pages := fun _ _ =>
      [⟨some ["gmod/maps/a.bsp.bz2", "gmod/maps/a.txt", "gmod/maps/b.bsp.bz2"]⟩]
    headObject := fun _ _ => .clientError "404"
    getObject := fun _ _ => .ok [1, 2, 3]
    jsonDecode := fun _ => .error .jsonErr
    bz2Decompress := fun _ => .ok [9, 9] }

/-- The state in which the maps phase of `wMaps` fails: only `a.bsp.bz2` was
selected (the `.txt` object filtered out, `b.bsp.bz2` never reached), the
scratch copy was written and cleaned up, and nothing was ever written under
`srv/maps`. -/
def c2FailState : St :=
  { files := [(["home", "manifest.json"], staticBody)]
    dirs := [["srv", "maps"], ["srv", "cfg"]]
    trace := [.listPage "fastdl" "/gmod/maps",
      .fsWrite ["tmp", "scratch", "a.bsp.bz2"],
      .getObj "fastdl" "gmod/maps/a.bsp.bz2",
      .fsWrite ["tmp", "scratch", "a.bsp.bz2"]] }

/-- C2 (code bug, evaluated at the failing input): on the listing
`["a.bsp.bz2", "a.txt", "b.bsp.bz2"]` the claim promises that sync writes
`maps/a.bsp` and `maps/b.bsp` with the decompressed payloads; instead the very
first map aborts the phase with `FileNotFoundError`, because `download_map`
names the destination `maps/a.bsp.bz2` (`base_name` keeps the compression
suffix — nothing strips `.bz2`) and opens it with mode `"rb"` (read), which
fails for a missing file and cannot be written even when the file pre-exists.
The final state shows no `.bsp` file (nor any destination file) was produced. -/
theorem map_sync_never_writes_bsp :
    ctxBase.download_maps wMaps stBase = .error (.fileNotFound, c2FailState) ∧
    c2FailState.lookupFile ["srv", "maps", "a.bsp"] = none ∧
    c2FailState.lookupFile ["srv", "maps", "a.bsp.bz2"] = none ∧
    c2FailState.lookupFile ["srv", "maps", "b.bsp"] = none :=
  ⟨rfl, rfl, rfl, rfl⟩

/-! ## Claim C6 -/

/-- The state carried by an outcome, whether success or failure. -/
def resSt : Except (Err × St) St → St
  | .ok s => s
  | .error es => es.2

/-- Events that are not configuration-phase actions: manifest resolution
begins with the existence probe (`headObj`) or the static-manifest read
(`staticRead`), so a trace free of those two kinds contains no
configuration-phase action. -/
def nonConfigEvent (ev : Event) : Prop :=
  (∀ b k, ev ≠ Event.headObj b k) ∧ (∀ q, ev ≠ Event.staticRead q)

/-- A trace containing no configuration-phase action. -/
def noCfg (tr : List Event) : Prop := ∀ ev ∈ tr, nonConfigEvent ev

theorem nonConfigEvent_listPage (b k : String) : nonConfigEvent (.listPage b k) :=
  ⟨fun _ _ h => Event.noConfusion h, fun _ h => Event.noConfusion h⟩

theorem nonConfigEvent_getObj (b k : String) : nonConfigEvent (.getObj b k) :=
  ⟨fun _ _ h => Event.noConfusion h, fun _ h => Event.noConfusion h⟩

theorem nonConfigEvent_fsWrite (p : List String) : nonConfigEvent (.fsWrite p) :=
  ⟨fun _ _ h => Event.noConfusion h, fun _ h => Event.noConfusion h⟩

theorem noCfg_append_one (tr : List Event) (ev : Event) (h : noCfg tr)
    (hev : nonConfigEvent ev) : noCfg (tr ++ [ev]) := by
  intro x hx
  rcases List.mem_append.mp hx with hx | hx
  · exact h x hx
  · rw [List.mem_singleton] at hx
    subst hx
    exact hev

theorem noCfg_log (st : St) (ev : Event) (h : noCfg st.trace)
    (hev : nonConfigEvent ev) : noCfg (st.log ev).trace :=
  noCfg_append_one st.trace ev h hev

theorem noCfg_writeFile (st : St) (p : List String) (b : Bytes)
    (h : noCfg st.trace) : noCfg (st.writeFile p b).trace :=
  noCfg_append_one st.trace (.fsWrite p) h (nonConfigEvent_fsWrite p)

theorem download_map_noCfg (ctx : RuntimeContext) (w : S3World)
    (tmpdir : List String) (obj : S3Path) (st : St) (h : noCfg st.trace) :
    noCfg (resSt (ctx.download_map w tmpdir obj st)).trace := by
  unfold RuntimeContext.download_map St.openWb
  dsimp only []
  by_cases h1 : (tmpdir ++ [obj.base_name]).dropLast ∈ st.dirs
  · rw [if_pos h1]
    dsimp only []
    unfold S3Path.get
    dsimp only []
    have hw1 : noCfg ((st.writeFile (tmpdir ++ [obj.base_name]) []).log
        (.getObj obj.bucket obj.key)).trace :=
      noCfg_log _ _ (noCfg_writeFile st _ [] h) (nonConfigEvent_getObj _ _)
    cases hg : w.getObject obj.bucket obj.key with
    | error e => exact hw1
    | ok body =>
      dsimp only []
      have hw2 : noCfg (((st.writeFile (tmpdir ++ [obj.base_name]) []).log
          (.getObj obj.bucket obj.key)).writeFile (tmpdir ++ [obj.base_name])
            body).trace :=
        noCfg_writeFile _ _ body hw1
      by_cases h2 : ((((st.writeFile (tmpdir ++ [obj.base_name]) []).log
          (.getObj obj.bucket obj.key)).writeFile (tmpdir ++ [obj.base_name])
            body).lookupFile (ctx.map_dir ++ [obj.base_name])).isSome
      · rw [if_pos h2]
        cases hb : w.bz2Decompress body with
        | error e => exact hw2
        | ok data =>
          dsimp only []
          by_cases h3 : data = []
          · rw [if_pos h3]
            exact hw2
          · rw [if_neg h3]
            exact hw2
      · rw [if_neg h2]
        exact hw2
  · rw [if_neg h1]
    exact h

theorem downloadObjs_noCfg (ctx : RuntimeContext) (w : S3World)
    (tmpdir : List String) (objs : List S3Path) (st : St) (h : noCfg st.trace) :
    noCfg (resSt (ctx.downloadObjs w tmpdir objs st)).trace := by
  induction objs generalizing st with
  | nil => exact h
  | cons o os ih =>
    unfold RuntimeContext.downloadObjs
    have hmap := download_map_noCfg ctx w tmpdir o st h
    cases hd : ctx.download_map w tmpdir o st with
    | error es =>
      rw [hd] at hmap
      exact hmap
    | ok s =>
      rw [hd] at hmap
      exact ih s hmap

theorem downloadLoop_noCfg (ctx : RuntimeContext) (w : S3World) (ml : S3Path)
    (tmpdir : List String) (pgs : List Page) (st : St) (h : noCfg st.trace) :
    noCfg (resSt (ctx.downloadLoop w ml tmpdir pgs st)).trace := by
  induction pgs generalizing st with
  | nil => exact h
  | cons pg rest ih =>
    unfold RuntimeContext.downloadLoop
    have hlog : noCfg (st.log (.listPage ml.bucket ml.key)).trace :=
      noCfg_log st _ h (nonConfigEvent_listPage _ _)
    cases pg.contents with
    | none => exact hlog
    | some keys =>
      dsimp only []
      have hobjs := downloadObjs_noCfg ctx w tmpdir
        ((keys.filter (fun k => hasSuffix k.data ".bsp.bz2".data)).map
          (fun k => S3Path.mk ml.bucket k)) (st.log (.listPage ml.bucket ml.key)) hlog
      cases ho : ctx.downloadObjs w tmpdir
          ((keys.filter (fun k => hasSuffix k.data ".bsp.bz2".data)).map
            (fun k => S3Path.mk ml.bucket k)) (st.log (.listPage ml.bucket ml.key)) with
      | error es =>
        rw [ho] at hobjs
        exact hobjs
      | ok s =>
        rw [ho] at hobjs
        exact ih s hobjs

theorem download_maps_noCfg (ctx : RuntimeContext) (w : S3World) (st : St)
    (h : noCfg st.trace) : noCfg (resSt (ctx.download_maps w st)).trace := by
  unfold RuntimeContext.download_maps
  cases ctx.map_location with
  | none => exact h
  | some ml =>
    dsimp only []
    have hloop := downloadLoop_noCfg ctx w ml scratchDir (w.pages ml.bucket ml.key)
      { st with dirs := scratchDir :: st.dirs } h
    cases hr : ctx.downloadLoop w ml scratchDir (w.pages ml.bucket ml.key)
        { st with dirs := scratchDir :: st.dirs } with
    | ok s =>
      rw [hr] at hloop
      exact hloop
    | error es =>
      rw [hr] at hloop
      cases es
      exact hloop

/-- C6: `main` runs the maps phase strictly before the configuration phase.
If the maps phase fails, `main` returns exactly that failure and its state:
nothing further executes, and — since the maps phase emits no existence probe
and no static-manifest read — a run that started with a clean trace has had no
configuration-phase action (manifest resolution or config download) performed.
If the maps phase succeeds, the configuration phase (when provided) runs on
the post-maps state. -/
theorem maps_phase_strictly_first (w : S3World) (wd hd : List String)
    (mu cu : String) (st st2 stF : St) (ml : S3Path) (clo : Option S3Path)
    (e : Err) (hm : S3Path.from_url mu = .ok (some ml))
    (hcu : S3Path.from_url cu = .ok clo) :
    ((RuntimeContext.mk (some ml) clo wd hd).download_maps w st = .error (e, stF) →
      mainRun w wd hd mu cu st = .error (e, stF) ∧
      (noCfg st.trace → noCfg stF.trace)) ∧
    ((RuntimeContext.mk (some ml) clo wd hd).download_maps w st = .ok st2 →
      mainRun w wd hd mu cu st =
        (if clo.isSome then
          (RuntimeContext.mk (some ml) clo wd hd).download_configuration_files w st2
        else .ok st2)) := by
  constructor
  · intro hfail
    constructor
    · unfold mainRun
      rw [hm, hcu]
      dsimp only [RuntimeContext.is_maps_provided, Option.isSome]
      rw [if_pos rfl, hfail]
    · intro hno
      have := download_maps_noCfg (RuntimeContext.mk (some ml) clo wd hd) w st hno
      rw [hfail] at this
      exact this
  · intro hok
    unfold mainRun
    rw [hm, hcu]
    dsimp only [RuntimeContext.is_maps_provided, Option.isSome]
    rw [if_pos rfl, hok]
    dsimp only [RuntimeContext.is_config_provided]
    cases clo with
    | none => rfl
    | some cl =>
      dsimp only [Option.isSome]
      rw [if_pos rfl]
      cases hr : (RuntimeContext.mk (some ml) (some cl) wd hd).download_configuration_files
          w st2 with
      | ok s => rfl
      | error es => rfl

/-- C6 witness: with the contents-less listing world, the maps phase fails
with `KeyError` and `main` returns exactly that failure; the resulting trace
(one listing page) contains no configuration-phase action. -/
theorem maps_phase_strictly_first_witness :
    (ctxBase.download_maps wPageNone stBase =
        .error (.keyErr,
          (({ stBase with dirs := scratchDir :: stBase.dirs } : St).log
            (.listPage "fastdl" "/gmod/maps")).cleanupDir scratchDir) →
      mainRun wPageNone ["srv"] ["home"] "s3://fastdl/gmod/maps" "s3://conf/gmod"
          stBase =
        .error (.keyErr,
          (({ stBase with dirs := scratchDir :: stBase.dirs } : St).log
            (.listPage "fastdl" "/gmod/maps")).cleanupDir scratchDir) ∧
      (noCfg stBase.trace →
        noCfg ((({ stBase with dirs := scratchDir :: stBase.dirs } : St).log
          (.listPage "fastdl" "/gmod/maps")).cleanupDir scratchDir).trace)) ∧
    (ctxBase.download_maps wPageNone stBase = .ok stBase →
      mainRun wPageNone ["srv"] ["home"] "s3://fastdl/gmod/maps" "s3://conf/gmod"
          stBase =
        (if (some (⟨"conf", "/gmod"⟩ : S3Path)).isSome then
          ctxBase.download_configuration_files wPageNone stBase
        else .ok stBase)) :=
  maps_phase_strictly_first wPageNone ["srv"] ["home"] "s3://fastdl/gmod/maps"
    "s3://conf/gmod" stBase stBase
    ((({ stBase with dirs := scratchDir :: stBase.dirs } : St).log
      (.listPage "fastdl" "/gmod/maps")).cleanupDir scratchDir)
    ⟨"fastdl", "/gmod/maps"⟩ (some ⟨"conf", "/gmod"⟩) .keyErr rfl rfl

/-! ## Claim C9 -/

theorem dropLast_append_two (l : List String) (a b : String) :
    (l ++ [a, b]).dropLast = l ++ [a] := by
  rw [show l ++ [a, b] = (l ++ [a]) ++ [b] by simp]
  rw [List.dropLast_concat]

theorem lookupFile_writeFile_self (st : St) (p : List String) (b : Bytes) :
    (st.writeFile p b).lookupFile p = some b := by
  unfold St.writeFile St.lookupFile
  dsimp only []
  rw [List.find?_cons_of_pos _ (by simp)]
  rfl

theorem find?_filter_ne (files : List (List String × Bytes)) (p q : List String)
    (h : p ≠ q) :
    (files.filter (fun e => !(e.1 == q))).find? (fun e => e.1 == p) =
      files.find? (fun e => e.1 == p) := by
  induction files with
  | nil => rfl
  | cons a as ih =>
    rw [List.filter_cons]
    by_cases h1 : a.1 = p
    · have hkeep : (fun (e : List String × Bytes) => !(e.1 == q)) a = true := by
        show (!(a.1 == q)) = true
        rw [show a.1 = p from h1]
        simp [h]
      have hfind : (a.1 == p) = true := by
        rw [show a.1 = p from h1]
        simp
      rw [if_pos hkeep, List.find?_cons, List.find?_cons, hfind]
    · have hfind : (a.1 == p) = false := by
        simpa using h1
      by_cases h2 : a.1 = q
      · have hdrop : ¬((fun (e : List String × Bytes) => !(e.1 == q)) a = true) := by
          show ¬((!(a.1 == q)) = true)
          rw [show a.1 = q from h2]
          simp
        rw [if_neg hdrop, List.find?_cons, hfind]
        exact ih
      · have hkeep : (fun (e : List String × Bytes) => !(e.1 == q)) a = true := by
          show (!(a.1 == q)) = true
          simpa using h2
        rw [if_pos hkeep, List.find?_cons, List.find?_cons, hfind]
        exact ih

theorem lookupFile_writeFile_ne (st : St) (p q : List String) (b : Bytes)
    (h : p ≠ q) : (st.writeFile q b).lookupFile p = st.lookupFile p := by
  unfold St.writeFile St.lookupFile
  dsimp only []
  rw [List.find?_cons_of_neg _ (by simp; exact Ne.symm h), find?_filter_ne st.files p q h]

theorem download_configuration_file_ok (ctx : RuntimeContext) (cl : S3Path)
    (w : S3World) (f d : String) (st : St) (b : Bytes)
    (hcl : ctx.config_location = some cl)
    (hdir : (ctx.working_dir ++ [d]) ∈ st.dirs)
    (hget : w.getObject (cl.navigate [f]).bucket (cl.navigate [f]).key = .ok b) :
    ctx.download_configuration_file w f d st =
      .ok (((st.writeFile (ctx.working_dir ++ [d, f]) []).log
        (.getObj (cl.navigate [f]).bucket (cl.navigate [f]).key)).writeFile
          (ctx.working_dir ++ [d, f]) b) := by
  unfold RuntimeContext.download_configuration_file St.openWb
  rw [hcl]
  dsimp only []
  rw [if_pos (by rw [dropLast_append_two]; exact hdir)]
  unfold S3Path.get
  dsimp only []
  rw [hget]

/-- The three events one manifest entry contributes: create/truncate the
target, fetch the child object, write the body. -/
def cfgBlock (ctx : RuntimeContext) (cl : S3Path) (fd : String × String) : List Event :=
  [.fsWrite (ctx.working_dir ++ [fd.2, fd.1]),
   .getObj (cl.navigate [fd.1]).bucket (cl.navigate [fd.1]).key,
   .fsWrite (ctx.working_dir ++ [fd.2, fd.1])]

/-- Concatenation of the per-entry event blocks, in manifest order. -/
def blocksOf (ctx : RuntimeContext) (cl : S3Path) :
    List (String × String) → List Event
  | [] => []
  | fd :: rest => cfgBlock ctx cl fd ++ blocksOf ctx cl rest

theorem configLoop_ok (ctx : RuntimeContext) (cl : S3Path) (w : S3World)
    (manifest : List (String × String)) (body : String → Bytes)
    (hcl : ctx.config_location = some cl) :
    ∀ st : St, (manifest.map Prod.fst).Nodup →
      (∀ f d, (f, d) ∈ manifest → (ctx.working_dir ++ [d]) ∈ st.dirs) →
      (∀ f d, (f, d) ∈ manifest →
        w.getObject (cl.navigate [f]).bucket (cl.navigate [f]).key = .ok (body f)) →
      ∃ st2, ctx.configLoop w manifest st = .ok st2 ∧
        st2.dirs = st.dirs ∧
        (∀ f d, (f, d) ∈ manifest →
          st2.lookupFile (ctx.working_dir ++ [d, f]) = some (body f)) ∧
        (∀ p, (∀ f d, (f, d) ∈ manifest → p ≠ ctx.working_dir ++ [d, f]) →
          st2.lookupFile p = st.lookupFile p) ∧
        st2.trace = st.trace ++ blocksOf ctx cl manifest := by
  induction manifest with
  | nil =>
    intro st _ _ _
    refine ⟨st, rfl, rfl, ?_, fun p _ => rfl, by simp [blocksOf]⟩
    intro f d hm
    exact absurd hm (List.not_mem_nil _)
  | cons fd rest ih =>
    obtain ⟨f, d⟩ := fd
    intro st hnodup hdirs hget
    have hmem : (f, d) ∈ (f, d) :: rest := List.mem_cons_self _ _
    have hstep := download_configuration_file_ok ctx cl w f d st (body f) hcl
      (hdirs f d hmem) (hget f d hmem)
    have hnodup' : (rest.map Prod.fst).Nodup := (List.nodup_cons.mp hnodup).2
    have hfnotin : f ∉ rest.map Prod.fst := (List.nodup_cons.mp hnodup).1
    set st1 : St := ((st.writeFile (ctx.working_dir ++ [d, f]) []).log
      (.getObj (cl.navigate [f]).bucket (cl.navigate [f]).key)).writeFile
        (ctx.working_dir ++ [d, f]) (body f) with hst1def
    have hdirs1 : st1.dirs = st.dirs := rfl
    have htr1 : st1.trace = st.trace ++ cfgBlock ctx cl (f, d) := by
      rw [hst1def]
      simp [St.writeFile, St.log, cfgBlock]
    have hlook1 : st1.lookupFile (ctx.working_dir ++ [d, f]) = some (body f) := by
      rw [hst1def]
      exact lookupFile_writeFile_self _ _ _
    have hpres1 : ∀ p, p ≠ ctx.working_dir ++ [d, f] →
        st1.lookupFile p = st.lookupFile p := by
      intro p hp
      rw [hst1def, lookupFile_writeFile_ne _ _ _ _ hp, lookupFile_log,
        lookupFile_writeFile_ne _ _ _ _ hp]
    obtain ⟨st2, hloop, hd2, hlook2, hpres2, htr2⟩ := ih st1 hnodup'
      (fun f' d' hm => hdirs f' d' (List.mem_cons_of_mem _ hm))
      (fun f' d' hm => hget f' d' (List.mem_cons_of_mem _ hm))
    have hne : ∀ f2 d2, (f2, d2) ∈ rest →
        (ctx.working_dir ++ [d, f]) ≠ (ctx.working_dir ++ [d2, f2]) := by
      intro f2 d2 hm2 heq
      have h1 : [d, f] = [d2, f2] := (List.append_right_inj _).mp heq
      have h2 : f = f2 := by
        injection h1 with h3 h4
        injection h4 with h5 _
      exact hfnotin (h2 ▸ List.mem_map_of_mem Prod.fst hm2)
    refine ⟨st2, ?_, hd2.trans hdirs1, ?_, ?_, ?_⟩
    · unfold RuntimeContext.configLoop
      rw [hstep]
      exact hloop
    · intro f' d' hm
      rcases List.mem_cons.mp hm with heq | hm'
      · rw [Prod.mk.injEq] at heq
        obtain ⟨rfl, rfl⟩ := heq
        rw [hpres2 _ hne]
        exact hlook1
      · exact hlook2 f' d' hm'
    · intro p hp
      rw [hpres2 p (fun f2 d2 hm2 => hp f2 d2 (List.mem_cons_of_mem _ hm2))]
      exact hpres1 p (hp f d hmem)
    · rw [htr2, htr1]
      simp [blocksOf, List.append_assoc]

/-- C9: for a resolved manifest (association list in iteration order) in which
filenames are unique and whose destination directories exist, config sync
succeeds and writes each entry's file at `working_dir/directory/filename` with
content byte-identical to the remote child object named `filename` (no
transformation), emitting the per-entry event blocks exactly in manifest
iteration order; and whenever an entry's download fails, the loop returns that
failure at once — the remaining entries are never processed. -/
theorem config_sync_writes_manifest (ctx : RuntimeContext) (cl : S3Path)
    (w : S3World) (manifest : List (String × String)) (body : String → Bytes)
    (st : St) (hcl : ctx.config_location = some cl)
    (hnodup : (manifest.map Prod.fst).Nodup)
    (hdirs : ∀ f d, (f, d) ∈ manifest → (ctx.working_dir ++ [d]) ∈ st.dirs)
    (hget : ∀ f d, (f, d) ∈ manifest →
      w.getObject (cl.navigate [f]).bucket (cl.navigate [f]).key = .ok (body f)) :
    (∃ st2, ctx.configLoop w manifest st = .ok st2 ∧
      (∀ f d, (f, d) ∈ manifest →
        st2.lookupFile (ctx.working_dir ++ [d, f]) = some (body f)) ∧
      st2.trace = st.trace ++ blocksOf ctx cl manifest) ∧
    (∀ f d rest e stE st1,
      ctx.download_configuration_file w f d st1 = .error (e, stE) →
      ctx.configLoop w ((f, d) :: rest) st1 = .error (e, stE)) := by
  constructor
  · obtain ⟨st2, hloop, _, hlook, _, htr⟩ :=
      configLoop_ok ctx cl w manifest body hcl st hnodup hdirs hget
    exact ⟨st2, hloop, hlook, htr⟩
  · intro f d rest e stE st1 hfail
    unfold RuntimeContext.configLoop
    rw [hfail]

/-- Body bytes served for every config object in `wCfg`. -/
def cfgBody : Bytes := [1, 2, 3]

/-- A world serving `cfgBody` for every fetched object. -/
def wCfg : S3World :=
  { pages := fun _ _ => []
    headObject := fun _ _ => .clientError "404"
    getObject := fun _ _ => .ok cfgBody
    jsonDecode := fun _ => .error .jsonErr
    bz2Decompress := fun _ => .error .decompressErr }

/-- C9 witness: syncing the manifest `{"server.cfg": "cfg", "motd.txt": "cfg"}`
into working dir `/srv` writes `/srv/cfg/server.cfg` and `/srv/cfg/motd.txt`
with the remote bytes, in order; and a failing entry aborts the loop. -/
theorem config_sync_writes_manifest_witness :
    (∃ st2, ctxBase.configLoop wCfg [("server.cfg", "cfg"), ("motd.txt", "cfg")]
        stBase = .ok st2 ∧
      (∀ f d, (f, d) ∈ [("server.cfg", "cfg"), ("motd.txt", "cfg")] →
        st2.lookupFile (["srv"] ++ [d, f]) = some cfgBody) ∧
      st2.trace = stBase.trace ++ blocksOf ctxBase ⟨"conf", "/gmod"⟩
        [("server.cfg", "cfg"), ("motd.txt", "cfg")]) ∧
    (∀ f d rest e stE st1,
      ctxBase.download_configuration_file wCfg f d st1 = .error (e, stE) →
      ctxBase.configLoop wCfg ((f, d) :: rest) st1 = .error (e, stE)) :=
  config_sync_writes_manifest ctxBase ⟨"conf", "/gmod"⟩ wCfg
    [("server.cfg", "cfg"), ("motd.txt", "cfg")] (fun _ => cfgBody) stBase rfl
    (by decide)
    (by
      intro f d hm
      rcases List.mem_cons.mp hm with heq | hm'
      · rw [Prod.mk.injEq] at heq
        obtain ⟨rfl, rfl⟩ := heq
        decide
      · rw [List.mem_singleton, Prod.mk.injEq] at hm'
        obtain ⟨rfl, rfl⟩ := hm'
        decide)
    (fun _ _ _ => rfl)
